import Mathlib

/-!
Verification of the bitsy-hacks save/load hack ("save.js") and the narrat
dialog-tag hack ("narrat call"). The JavaScript is shallowly embedded:
JavaScript values are modelled by `JSVal`, the browser's localStorage by an
association list, and the mutable bitsy engine fields touched by the hack by
the record `EngineState`. Fallible JavaScript code (property access on
null/undefined, `forEach` on a non-array, assignment through a missing room)
is modelled in the `Except String` monad.
-/

/-- JavaScript values, as far as the hack manipulates them: primitives,
arrays and plain objects (association lists of string keys). -/
inductive JSVal where
  | undefined
  | null
  | bool (b : Bool)
  | num (n : Int)
  | str (s : String)
  | arr (xs : List JSVal)
  | obj (fields : List (String × JSVal))

/-- JavaScript truthiness: `undefined`, `null`, `false`, `0` and the empty
string are falsy; every array and object is truthy. -/
def JSVal.truthy : JSVal → Bool
  | .undefined => false
  | .null => false
  | .bool b => b
  | .num n => n != 0
  | .str s => !s.isEmpty
  | .arr _ => true
  | .obj _ => true

/-- Whether a value is `undefined` (used by JSON serialization, which drops
such object fields). -/
def JSVal.isUndefined : JSVal → Bool
  | .undefined => true
  | _ => false

/-- Association-list lookup with string keys (JavaScript object field access
and localStorage key access are both modelled with it). -/
def alookup {α : Type} (k : String) : List (String × α) → Option α
  | [] => none
  | (a, v) :: rest => if a = k then some v else alookup k rest

/-- Property access `v.k`. Throws a TypeError on `null`/`undefined`; on any
other non-object it yields `undefined`, and on an object it looks the key up. -/
def JSVal.getE : JSVal → String → Except String JSVal
  | .null, k => .error ("TypeError: cannot read properties of null, reading " ++ k)
  | .undefined, k => .error ("TypeError: cannot read properties of undefined, reading " ++ k)
  | .obj fs, k => .ok ((alookup k fs).getD .undefined)
  | _, _ => .ok .undefined

/-- Index access `v[i]` for a numeric literal index. Arrays yield the element
(or `undefined` past the end), strings yield a one-character string, objects
look up the stringified index, `null`/`undefined` throw. -/
def JSVal.idxE : JSVal → Nat → Except String JSVal
  | .null, _ => .error "TypeError: cannot read properties of null, indexing"
  | .undefined, _ => .error "TypeError: cannot read properties of undefined, indexing"
  | .arr xs, i => .ok ((xs.get? i).getD .undefined)
  | .str s, i => .ok (((s.data.get? i).map fun c => JSVal.str (String.mk [c])).getD .undefined)
  | .obj fs, i => .ok ((alookup (toString i) fs).getD .undefined)
  | _, _ => .ok .undefined

mutual
/-- JavaScript ToString coercion, as used when a value is used as an object
key (`bitsy.room[entry[0]]`, variable names). -/
def JSVal.toKeyString : JSVal → String
  | .undefined => "undefined"
  | .null => "null"
  | .bool true => "true"
  | .bool false => "false"
  | .num n => toString n
  | .str s => s
  | .arr xs => toKeyStringList xs
  | .obj _ => "[object Object]"

/-- Array ToString: elements joined by commas. -/
def toKeyStringList : List JSVal → String
  | [] => ""
  | [x] => toKeyStringElem x
  | x :: xs => toKeyStringElem x ++ "," ++ toKeyStringList xs

/-- Element ToString inside an array: `null` and `undefined` become empty. -/
def toKeyStringElem : JSVal → String
  | .undefined => ""
  | .null => ""
  | .bool true => "true"
  | .bool false => "false"
  | .num n => toString n
  | .str s => s
  | .arr xs => toKeyStringList xs
  | .obj _ => "[object Object]"
end

/-- The list of elements `forEach` iterates over. On a non-array (the hack
only calls it guarded by truthiness) the call `v.forEach(...)` throws,
because only arrays have a `forEach` method. -/
def JSVal.elemsE : JSVal → Except String (List JSVal)
  | .arr xs => .ok xs
  | _ => .error "TypeError: forEach is not a function"

mutual
/-- Result of `JSON.parse(JSON.stringify v)`: `undefined`-valued object
fields are dropped and `undefined` array elements become `null`; everything
else the hack stores survives unchanged. -/
def jsonNormalize : JSVal → JSVal
  | .undefined => .undefined
  | .null => .null
  | .bool b => .bool b
  | .num n => .num n
  | .str s => .str s
  | .arr xs => .arr (jsonNormalizeArr xs)
  | .obj fs => .obj (jsonNormalizeObj fs)

/-- JSON round-trip of the elements of an array. -/
def jsonNormalizeArr : List JSVal → List JSVal
  | [] => []
  | x :: xs =>
    (if (jsonNormalize x).isUndefined then .null else jsonNormalize x) :: jsonNormalizeArr xs

/-- JSON round-trip of the fields of an object. -/
def jsonNormalizeObj : List (String × JSVal) → List (String × JSVal)
  | [] => []
  | (k, v) :: fs =>
    if (jsonNormalize v).isUndefined then jsonNormalizeObj fs
    else (k, jsonNormalize v) :: jsonNormalizeObj fs
end

/-- The browser's localStorage, restricted to string keys and (the parsed
form of) the stored strings. -/
abbrev Storage : Type := List (String × JSVal)

/-- localStorage.getItem: `none` models the `null` returned when no value is
stored under the key. -/
def getItem (st : Storage) (k : String) : Option JSVal :=
  alookup k st

/-- localStorage.setItem: replaces the value stored under the key, or
appends a fresh entry. -/
def setItem (st : Storage) (k : String) (v : JSVal) : Storage :=
  if (alookup k st).isSome then
    st.map fun p => if p.1 = k then (k, v) else p
  else st ++ [(k, v)]

/-- localStorage.removeItem: deletes every entry stored under the key. -/
def removeItem (st : Storage) (k : String) : Storage :=
  st.filter fun p => p.1 ≠ k

/-- The hack's `hackOptions` record. `autosaveInterval` is a duration in
milliseconds that may be the JavaScript `Infinity`, modelled by `⊤ : ℕ∞`. -/
structure HackOptions where
  autosaveInterval : ℕ∞
  loadOnStart : Bool
  clearOnEnd : Bool
  clearOnStart : Bool
  position : Bool
  «variables» : Bool
  items : Bool
  dialog : Bool
  key : String

/-- The default `hackOptions` shipped with the hack. -/
def defaultHackOptions : HackOptions where
  autosaveInterval := ⊤
  loadOnStart := true
  clearOnEnd := false
  clearOnStart := false
  position := true
  «variables» := true
  items := true
  dialog := true
  key := "snapshot"

/-- The bitsy engine state the hack reads and writes: `curRoom`, the player
sprite's `x`, `y`, `room` and `inventory` fields, every room's `items` list
(rooms are modelled by their id and `items` field, the only part the hack
touches), the script interpreter's dialog variables, and the
`bitsy.saveHack` globals `sequenceIndices` and `shuffles` that the injected
dialog-sequencing patches maintain. -/
structure EngineState where
  curRoom : JSVal
  playerX : JSVal
  playerY : JSVal
  playerRoom : JSVal
  inventory : JSVal
  rooms : List (String × JSVal)
  «variables» : List (String × JSVal)
  sequenceIndices : JSVal
  shuffles : JSVal

/-- scriptInterpreter.SetVariable: updates the variable in place when it
exists, otherwise appends it. -/
def setVar (vars : List (String × JSVal)) (k : String) (v : JSVal) :
    List (String × JSVal) :=
  if (alookup k vars).isSome then
    vars.map fun p => if p.1 = k then (k, v) else p
  else vars ++ [(k, v)]

/-- Assignment `bitsy.room[k].items = v`: throws a TypeError when no room is
stored under the key (the lookup yields `undefined`). -/
def setRoomItems (rooms : List (String × JSVal)) (k : String) (v : JSVal) :
    Except String (List (String × JSVal)) :=
  if (alookup k rooms).isSome then
    .ok (rooms.map fun p => if p.1 = k then (k, v) else p)
  else .error "TypeError: cannot set properties of undefined, setting items"

/-- The snapshot object built by `save()`: each feature flag contributes its
fields in source order. -/
def buildSnapshot (opts : HackOptions) (e : EngineState) : JSVal :=
  .obj
    ((if opts.position then
        [("room", e.curRoom), ("x", e.playerX), ("y", e.playerY)]
      else []) ++
     (if opts.items then
        [("inventory", e.inventory),
         ("items", .arr (e.rooms.map fun p => .arr [.str p.1, p.2]))]
      else []) ++
     (if opts.«variables» then
        [("variables", .arr (e.«variables».map fun p => .arr [.str p.1, p.2]))]
      else []) ++
     (if opts.dialog then
        [("sequenceIndices", e.sequenceIndices), ("shuffles", e.shuffles)]
      else []))

/-- save(): builds the snapshot and stores `JSON.stringify` of it under
`hackOptions.key`. The engine state is not modified. -/
def save (opts : HackOptions) (st : Storage) (e : EngineState) : Storage :=
  setItem st opts.key (jsonNormalize (buildSnapshot opts e))

/-- The position block of load(): `bitsy.curRoom = bitsy.player().room =
snapshot.room` when `snapshot.room` is truthy, and the player's `x`/`y` when
`snapshot.x && snapshot.y` is truthy. -/
def loadPosition (snapshot : JSVal) (e : EngineState) : Except String EngineState := do
  let roomV ← snapshot.getE "room"
  let e := if roomV.truthy then { e with curRoom := roomV, playerRoom := roomV } else e
  let xV ← snapshot.getE "x"
  if xV.truthy then do
    let yV ← snapshot.getE "y"
    if yV.truthy then
      pure { e with playerX := xV, playerY := yV }
    else pure e
  else pure e

/-- The `snapshot.items.forEach` loop of load(): each entry writes
`bitsy.room[entry[0]].items = entry[1]`. -/
def applyItemEntries : List JSVal → List (String × JSVal) →
    Except String (List (String × JSVal))
  | [], rooms => .ok rooms
  | entry :: rest, rooms => do
    let k ← entry.idxE 0
    let v ← entry.idxE 1
    let rooms' ← setRoomItems rooms k.toKeyString v
    applyItemEntries rest rooms'

/-- The items block of load(): restores the player inventory when
`snapshot.inventory` is truthy and replays `snapshot.items` into the rooms
when it is truthy. -/
def loadItems (snapshot : JSVal) (e : EngineState) : Except String EngineState := do
  let invV ← snapshot.getE "inventory"
  let e := if invV.truthy then { e with inventory := invV } else e
  let itemsV ← snapshot.getE "items"
  if itemsV.truthy then do
    let entries ← itemsV.elemsE
    let rooms ← applyItemEntries entries e.rooms
    pure { e with rooms := rooms }
  else pure e

/-- The `snapshot.variables.forEach` loop of load(): each entry calls
`scriptInterpreter.SetVariable(entry[0], entry[1])`. -/
def applyVarEntries : List JSVal → List (String × JSVal) →
    Except String (List (String × JSVal))
  | [], vars => .ok vars
  | entry :: rest, vars => do
    let k ← entry.idxE 0
    let v ← entry.idxE 1
    applyVarEntries rest (setVar vars k.toKeyString v)

/-- The variables block of load(). -/
def loadVariables (snapshot : JSVal) (e : EngineState) : Except String EngineState := do
  let varsV ← snapshot.getE "variables"
  if varsV.truthy then do
    let entries ← varsV.elemsE
    let vars ← applyVarEntries entries e.«variables»
    pure { e with «variables» := vars }
  else pure e

/-- The dialog block of load(): when `snapshot.sequenceIndices` is truthy,
both `saveHack.sequenceIndices` and `saveHack.shuffles` are overwritten. -/
def loadDialog (snapshot : JSVal) (e : EngineState) : Except String EngineState := do
  let seqV ← snapshot.getE "sequenceIndices"
  if seqV.truthy then do
    let shV ← snapshot.getE "shuffles"
    pure { e with sequenceIndices := seqV, shuffles := shV }
  else pure e

/-- load(): aborts silently when nothing is stored under `hackOptions.key`,
otherwise parses the stored string and runs the four feature-flag-guarded
blocks in source order. -/
def load (opts : HackOptions) (st : Storage) (e : EngineState) :
    Except String EngineState :=
  match getItem st opts.key with
  | none => .ok e
  | some snapshot => do
    let e ← if opts.position then loadPosition snapshot e else pure e
    let e ← if opts.items then loadItems snapshot e else pure e
    let e ← if opts.«variables» then loadVariables snapshot e else pure e
    if opts.dialog then loadDialog snapshot e else pure e

/-- clear(): `localStorage.removeItem(hackOptions.key)`. -/
def clear (opts : HackOptions) (st : Storage) : Storage :=
  removeItem st opts.key

/-- The `before('reset_cur_game')` hook: clears the save only when
`clearOnEnd` is set and the engine's `isEnding` flag is up. -/
def resetCurGameHook (opts : HackOptions) (isEnding : Bool) (st : Storage) : Storage :=
  if opts.clearOnEnd then
    if isEnding then clear opts st else st
  else st

/-- The `before('startExportedGame')` hook: clears the save when
`clearOnStart` is set. -/
def startExportedGameHook (opts : HackOptions) (st : Storage) : Storage :=
  if opts.clearOnStart then clear opts st else st

/-- The `after('onready')` autosave hook, acting on the possibly-installed
periodic timer (`some i` is a timer firing save() every `i` milliseconds):
when `autosaveInterval < Infinity` it clears the previous timer and installs
a new one at that interval; otherwise it leaves the timer alone. -/
def onreadyAutosaveHook (opts : HackOptions) (timer : Option ℕ∞) : Option ℕ∞ :=
  if opts.autosaveInterval < ⊤ then some opts.autosaveInterval else timer

/-- The `after('onready')` autoload hook: loads when `loadOnStart` is set. -/
def onreadyAutoloadHook (opts : HackOptions) (st : Storage) (e : EngineState) :
    Except String EngineState :=
  if opts.loadOnStart then load opts st e else .ok e

/-- The operations of the save hack that touch the storage slot, for
reasoning about sequences of them. -/
inductive SaveOp where
  | save
  | load
  | clear
  | resetHook (isEnding : Bool)
  | startHook

/-- One step of the save hack: runs the operation on storage and engine. -/
def runOp (opts : HackOptions) : SaveOp → Storage × EngineState →
    Except String (Storage × EngineState)
  | .save, (st, e) => .ok (save opts st e, e)
  | .load, (st, e) => (load opts st e).map fun e' => (st, e')
  | .clear, (st, e) => .ok (clear opts st, e)
  | .resetHook b, (st, e) => .ok (resetCurGameHook opts b st, e)
  | .startHook, (st, e) => .ok (startExportedGameHook opts st, e)

/-- Runs a sequence of save-hack operations. -/
def runOps (opts : HackOptions) : List SaveOp → Storage × EngineState →
    Except String (Storage × EngineState)
  | [], s => .ok s
  | op :: ops, s => runOp opts op s >>= runOps opts ops

/-- World observed by the narrat hack: the console warnings emitted and the
labels passed to `window.narrat.jump`, in order. -/
structure NarratWorld where
  warnings : List String
  jumps : List JSVal

/-- The narrat hack's jump function: warns and returns when the label is
falsy, otherwise calls `window.narrat.jump` with it. -/
def narratJump (targetLabel : JSVal) (w : NarratWorld) : NarratWorld :=
  if !targetLabel.truthy then
    { w with warnings := w.warnings ++ ["Tried to jump to narrat label, but no label"] }
  else
    { w with jumps := w.jumps ++ [targetLabel] }

/-- The `(narrat "labelId")` dialog tag: calls `narratJump(parameters[0])`
(`undefined` when no parameter was given). -/
def narratTag (parameters : List JSVal) (w : NarratWorld) : NarratWorld :=
  narratJump ((parameters.get? 0).getD .undefined) w

/-- A concrete engine state used to instantiate the theorems. -/
def exampleEngine : EngineState where
  curRoom := .str "0"
  playerX := .num 4
  playerY := .num 3
  playerRoom := .str "0"
  inventory := .obj [("tea", .num 1)]
  rooms := [("0", .arr [.arr [.str "tea", .num 5, .num 5]]), ("1", .arr [])]
  «variables» := [("a", .num 42), ("b", .str "hi")]
  sequenceIndices := .obj [("SEQ_0", .num 1)]
  shuffles := .obj [("SEQ_1", .arr [.num 1, .num 0])]

example :
    (load defaultHackOptions (save defaultHackOptions [] exampleEngine)
      exampleEngine).map EngineState.playerX = .ok (.num 4) := rfl

example :
    (load defaultHackOptions
        (save defaultHackOptions []
          { exampleEngine with playerX := .num 0, playerY := .num 1 })
        { exampleEngine with playerX := .num 5, playerY := .num 6 }).map
      EngineState.playerX = .ok (.num 5) := rfl

/-! Helper lemmas about the embedding. -/

@[simp]
theorem ok_bind {ε α β : Type} (a : α) (f : α → Except ε β) :
    (Except.ok a >>= f) = f a := rfl

@[simp]
theorem error_bind {ε α β : Type} (msg : ε) (f : α → Except ε β) :
    ((Except.error msg : Except ε α) >>= f) = .error msg := rfl

@[simp]
theorem pure_eq_ok {ε α : Type} (a : α) : (pure a : Except ε α) = .ok a := rfl

theorem except_bind_ok {ε α β : Type} {x : Except ε α} {f : α → Except ε β} {b : β} :
    (x >>= f) = .ok b ↔ ∃ a, x = .ok a ∧ f a = .ok b := by
  cases x <;> simp

theorem alookup_cons_self {α : Type} (k : String) (v : α) (l : List (String × α)) :
    alookup k ((k, v) :: l) = some v := by
  simp [alookup]

theorem alookup_append {α : Type} (k : String) (l1 l2 : List (String × α)) :
    alookup k (l1 ++ l2) =
      match alookup k l1 with
      | some v => some v
      | none => alookup k l2 := by
  induction l1 with
  | nil => simp [alookup]
  | cons p rest ih =>
    obtain ⟨a, v⟩ := p
    by_cases h : a = k <;> simp [alookup, h, ih]

theorem alookup_append_right {α : Type} (k : String) (l1 l2 : List (String × α))
    (h : k ∉ l1.map Prod.fst) : alookup k (l1 ++ l2) = alookup k l2 := by
  induction l1 with
  | nil => simp
  | cons p rest ih =>
    obtain ⟨a, v⟩ := p
    simp only [List.map_cons, List.mem_cons] at h
    push_neg at h
    simp [alookup, Ne.symm h.1, ih h.2]

theorem alookup_eq_none {α : Type} (k : String) (l : List (String × α))
    (h : k ∉ l.map Prod.fst) : alookup k l = none := by
  induction l with
  | nil => simp [alookup]
  | cons p rest ih =>
    obtain ⟨a, v⟩ := p
    simp only [List.map_cons, List.mem_cons] at h
    push_neg at h
    simp [alookup, Ne.symm h.1, ih h.2]

theorem update_map_id {α : Type} (k : String) (v : α) (l : List (String × α))
    (h : k ∉ l.map Prod.fst) :
    (l.map fun p => if p.1 = k then (k, v) else p) = l := by
  induction l with
  | nil => rfl
  | cons p rest ih =>
    obtain ⟨a, b⟩ := p
    simp only [List.map_cons, List.mem_cons] at h
    push_neg at h
    simp [Ne.symm h.1, ih h.2]

theorem alookup_update_self {α : Type} (k : String) (v : α) (l : List (String × α)) :
    alookup k (l.map fun p => if p.1 = k then (k, v) else p) =
      if (alookup k l).isSome then some v else none := by
  induction l with
  | nil => simp [alookup]
  | cons p rest ih =>
    obtain ⟨a, b⟩ := p
    simp only [List.map_cons]
    by_cases h : a = k
    · subst h
      rw [show ((if (a, b).1 = a then (a, v) else (a, b)) : String × α) = (a, v) from
        if_pos rfl]
      simp [alookup]
    · rw [show ((if (a, b).1 = k then (k, v) else (a, b)) : String × α) = (a, b) from
        if_neg h]
      simp [alookup, h, ih]

theorem getItem_setItem_self (st : Storage) (k : String) (v : JSVal) :
    getItem (setItem st k v) k = some v := by
  unfold getItem setItem
  by_cases h : (alookup k st).isSome
  · rw [if_pos h, alookup_update_self]
    simp [h]
  · rw [if_neg h, alookup_append, Option.not_isSome_iff_eq_none.mp h]
    simp [alookup]

theorem getItem_removeItem_self (st : Storage) (k : String) :
    getItem (removeItem st k) k = none := by
  unfold getItem removeItem
  induction st with
  | nil => rfl
  | cons p rest ih =>
    obtain ⟨a, b⟩ := p
    by_cases h : a = k
    · subst h
      simpa [List.filter_cons, alookup] using ih
    · simpa [List.filter_cons, alookup, h] using ih

@[simp]
theorem JSVal.truthy_arr (xs : List JSVal) : (JSVal.arr xs).truthy = true := rfl

@[simp]
theorem JSVal.truthy_obj (fs : List (String × JSVal)) :
    (JSVal.obj fs).truthy = true := rfl

@[simp]
theorem JSVal.truthy_undef : JSVal.undefined.truthy = false := rfl

@[simp]
theorem JSVal.truthy_null : JSVal.null.truthy = false := rfl

theorem isUndef_false_of_truthy (v : JSVal) (h : v.truthy = true) :
    v.isUndefined = false := by
  cases v <;> simp_all [JSVal.truthy, JSVal.isUndefined]

theorem isUndef_false_of_ne (v : JSVal) (h : v ≠ .undefined) : v.isUndefined = false := by
  cases v <;> simp_all [JSVal.isUndefined]

theorem jsonNormalizeObj_cons_keep (k : String) (v : JSVal)
    (fs : List (String × JSVal)) (h : (jsonNormalize v).isUndefined = false) :
    jsonNormalizeObj ((k, v) :: fs) = (k, jsonNormalize v) :: jsonNormalizeObj fs := by
  simp [jsonNormalizeObj, h]

theorem load_of_none (opts : HackOptions) (st : Storage) (e : EngineState)
    (h : getItem st opts.key = none) : load opts st e = .ok e := by
  unfold load
  rw [h]

theorem load_of_some (opts : HackOptions) (st : Storage) (e : EngineState)
    (snapshot : JSVal) (h : getItem st opts.key = some snapshot) :
    load opts st e =
      ((if opts.position then loadPosition snapshot e else pure e) >>= fun e =>
        (if opts.items then loadItems snapshot e else pure e) >>= fun e =>
          (if opts.«variables» then loadVariables snapshot e else pure e) >>= fun e =>
            if opts.dialog then loadDialog snapshot e else pure e) := by
  unfold load
  rw [h]
  by_cases hp : opts.position = true <;> by_cases hi : opts.items = true <;>
    by_cases hv : opts.«variables» = true <;> by_cases hd : opts.dialog = true <;>
    simp [hp, hi, hv, hd]

theorem loadPosition_frame {snapshot : JSVal} {e e' : EngineState}
    (h : loadPosition snapshot e = .ok e') :
    e'.inventory = e.inventory ∧ e'.rooms = e.rooms ∧
      e'.«variables» = e.«variables» ∧ e'.sequenceIndices = e.sequenceIndices ∧
      e'.shuffles = e.shuffles := by
  unfold loadPosition at h
  cases hroom : snapshot.getE "room" with
  | error m => simp [hroom] at h
  | ok roomV =>
    simp only [hroom, ok_bind] at h
    cases hx : snapshot.getE "x" with
    | error m => simp [hx] at h
    | ok xV =>
      simp only [hx, ok_bind] at h
      by_cases hxt : xV.truthy = true
      · rw [if_pos hxt] at h
        cases hy : snapshot.getE "y" with
        | error m => simp [hy] at h
        | ok yV =>
          simp only [hy, ok_bind] at h
          by_cases hyt : yV.truthy = true
          · rw [if_pos hyt] at h
            simp only [pure_eq_ok, Except.ok.injEq] at h
            subst h
            by_cases hrt : roomV.truthy = true <;> simp [hrt]
          · rw [if_neg hyt] at h
            simp only [pure_eq_ok, Except.ok.injEq] at h
            subst h
            by_cases hrt : roomV.truthy = true <;> simp [hrt]
      · rw [if_neg hxt] at h
        simp only [pure_eq_ok, Except.ok.injEq] at h
        subst h
        by_cases hrt : roomV.truthy = true <;> simp [hrt]

theorem loadItems_frame {snapshot : JSVal} {e e' : EngineState}
    (h : loadItems snapshot e = .ok e') :
    e'.curRoom = e.curRoom ∧ e'.playerX = e.playerX ∧ e'.playerY = e.playerY ∧
      e'.playerRoom = e.playerRoom ∧ e'.«variables» = e.«variables» ∧
      e'.sequenceIndices = e.sequenceIndices ∧ e'.shuffles = e.shuffles := by
  unfold loadItems at h
  cases hinv : snapshot.getE "inventory" with
  | error m => simp [hinv] at h
  | ok invV =>
    simp only [hinv, ok_bind] at h
    cases hitems : snapshot.getE "items" with
    | error m => simp [hitems] at h
    | ok itemsV =>
      simp only [hitems, ok_bind] at h
      by_cases hit : itemsV.truthy = true
      · rw [if_pos hit] at h
        cases hent : itemsV.elemsE with
        | error m => simp [hent] at h
        | ok entries =>
          simp only [hent, ok_bind] at h
          by_cases hiv : invV.truthy = true
          · rw [if_pos hiv] at h
            cases happ : applyItemEntries entries
                { e with inventory := invV }.rooms with
            | error m => simp [happ] at h
            | ok rooms =>
              simp only [happ, ok_bind, pure_eq_ok, Except.ok.injEq] at h
              subst h
              simp [hiv]
          · rw [if_neg hiv] at h
            cases happ : applyItemEntries entries e.rooms with
            | error m => simp [happ] at h
            | ok rooms =>
              simp only [happ, ok_bind, pure_eq_ok, Except.ok.injEq] at h
              subst h
              simp [hiv]
      · rw [if_neg hit] at h
        simp only [pure_eq_ok, Except.ok.injEq] at h
        subst h
        by_cases hiv : invV.truthy = true <;> simp [hiv]

theorem loadVariables_frame {snapshot : JSVal} {e e' : EngineState}
    (h : loadVariables snapshot e = .ok e') :
    e'.curRoom = e.curRoom ∧ e'.playerX = e.playerX ∧ e'.playerY = e.playerY ∧
      e'.playerRoom = e.playerRoom ∧ e'.inventory = e.inventory ∧
      e'.rooms = e.rooms ∧ e'.sequenceIndices = e.sequenceIndices ∧
      e'.shuffles = e.shuffles := by
  unfold loadVariables at h
  cases hvars : snapshot.getE "variables" with
  | error m => simp [hvars] at h
  | ok varsV =>
    simp only [hvars, ok_bind] at h
    by_cases hvt : varsV.truthy = true
    · rw [if_pos hvt] at h
      cases hent : varsV.elemsE with
      | error m => simp [hent] at h
      | ok entries =>
        simp only [hent, ok_bind] at h
        cases happ : applyVarEntries entries e.«variables» with
        | error m => simp [happ] at h
        | ok vars =>
          simp only [happ, ok_bind, pure_eq_ok, Except.ok.injEq] at h
          subst h
          simp
    · rw [if_neg hvt] at h
      simp only [pure_eq_ok, Except.ok.injEq] at h
      subst h
      simp

theorem loadDialog_frame {snapshot : JSVal} {e e' : EngineState}
    (h : loadDialog snapshot e = .ok e') :
    e'.curRoom = e.curRoom ∧ e'.playerX = e.playerX ∧ e'.playerY = e.playerY ∧
      e'.playerRoom = e.playerRoom ∧ e'.inventory = e.inventory ∧
      e'.rooms = e.rooms ∧ e'.«variables» = e.«variables» := by
  unfold loadDialog at h
  cases hseq : snapshot.getE "sequenceIndices" with
  | error m => simp [hseq] at h
  | ok seqV =>
    simp only [hseq, ok_bind] at h
    by_cases hst : seqV.truthy = true
    · rw [if_pos hst] at h
      cases hsh : snapshot.getE "shuffles" with
      | error m => simp [hsh] at h
      | ok shV =>
        simp only [hsh, ok_bind, pure_eq_ok, Except.ok.injEq] at h
        subst h
        simp
    · rw [if_neg hst] at h
      simp only [pure_eq_ok, Except.ok.injEq] at h
      subst h
      simp

theorem applyItemEntries_restore (saved : List (String × JSVal)) :
    ∀ pre cur : List (String × JSVal),
      ((pre ++ cur).map Prod.fst).Nodup →
      cur.map Prod.fst = saved.map Prod.fst →
      applyItemEntries (saved.map fun p => JSVal.arr [.str p.1, p.2]) (pre ++ cur) =
        .ok (pre ++ saved) := by
  induction saved with
  | nil =>
    intro pre cur hnd hkeys
    have hc : cur = [] := by
      cases cur with
      | nil => rfl
      | cons c cur' => simp at hkeys
    subst hc
    simp [applyItemEntries]
  | cons p saved ih =>
    intro pre cur hnd hkeys
    obtain ⟨k, v⟩ := p
    cases cur with
    | nil => simp at hkeys
    | cons c cur' =>
      obtain ⟨ck, cv⟩ := c
      simp only [List.map_cons, List.cons.injEq] at hkeys
      obtain ⟨hck, hkeys'⟩ := hkeys
      subst hck
      have hnd2 : (pre.map Prod.fst ++ ck :: cur'.map Prod.fst).Nodup := by
        simpa [List.map_append] using hnd
      rw [List.nodup_append] at hnd2
      obtain ⟨hnpre, hncons, hdisj⟩ := hnd2
      have hnotpre : ck ∉ pre.map Prod.fst := fun hk =>
        hdisj hk (List.mem_cons_self _ _)
      have hnotcur : ck ∉ cur'.map Prod.fst := (List.nodup_cons.mp hncons).1
      have hstep : setRoomItems (pre ++ (ck, cv) :: cur') ck v =
          .ok (pre ++ (ck, v) :: cur') := by
        unfold setRoomItems
        rw [alookup_append_right _ _ _ hnotpre, alookup_cons_self]
        simp only [Option.isSome_some, if_true, List.map_append, List.map_cons]
        rw [update_map_id _ _ _ hnotpre, update_map_id _ _ _ hnotcur]
      simp only [List.map_cons, applyItemEntries, JSVal.idxE, List.get?,
        Option.getD_some, ok_bind, JSVal.toKeyString, hstep]
      have hih := ih (pre ++ [(ck, v)]) cur'
        (by simpa [List.map_append, List.append_assoc] using hnd)
        hkeys'
      simpa [List.append_assoc] using hih

theorem applyVarEntries_restore (saved : List (String × JSVal)) :
    ∀ pre cur : List (String × JSVal),
      ((pre ++ cur).map Prod.fst).Nodup →
      cur.map Prod.fst = saved.map Prod.fst →
      applyVarEntries (saved.map fun p => JSVal.arr [.str p.1, p.2]) (pre ++ cur) =
        .ok (pre ++ saved) := by
  induction saved with
  | nil =>
    intro pre cur hnd hkeys
    have hc : cur = [] := by
      cases cur with
      | nil => rfl
      | cons c cur' => simp at hkeys
    subst hc
    simp [applyVarEntries]
  | cons p saved ih =>
    intro pre cur hnd hkeys
    obtain ⟨k, v⟩ := p
    cases cur with
    | nil => simp at hkeys
    | cons c cur' =>
      obtain ⟨ck, cv⟩ := c
      simp only [List.map_cons, List.cons.injEq] at hkeys
      obtain ⟨hck, hkeys'⟩ := hkeys
      subst hck
      have hnd2 : (pre.map Prod.fst ++ ck :: cur'.map Prod.fst).Nodup := by
        simpa [List.map_append] using hnd
      rw [List.nodup_append] at hnd2
      obtain ⟨hnpre, hncons, hdisj⟩ := hnd2
      have hnotpre : ck ∉ pre.map Prod.fst := fun hk =>
        hdisj hk (List.mem_cons_self _ _)
      have hnotcur : ck ∉ cur'.map Prod.fst := (List.nodup_cons.mp hncons).1
      have hstep : setVar (pre ++ (ck, cv) :: cur') ck v = pre ++ (ck, v) :: cur' := by
        unfold setVar
        rw [alookup_append_right _ _ _ hnotpre, alookup_cons_self]
        simp only [Option.isSome_some, if_true, List.map_append, List.map_cons]
        rw [update_map_id _ _ _ hnotpre, update_map_id _ _ _ hnotcur]
      simp only [List.map_cons, applyVarEntries, JSVal.idxE, List.get?,
        Option.getD_some, ok_bind, JSVal.toKeyString, hstep]
      have hih := ih (pre ++ [(ck, v)]) cur'
        (by simpa [List.map_append, List.append_assoc] using hnd)
        hkeys'
      simpa [List.append_assoc] using hih

theorem loadPosition_obj (fs : List (String × JSVal)) (e : EngineState) :
    loadPosition (.obj fs) e =
      .ok (let r := (alookup "room" fs).getD .undefined
           let x := (alookup "x" fs).getD .undefined
           let y := (alookup "y" fs).getD .undefined
           let e1 := if r.truthy then { e with curRoom := r, playerRoom := r } else e
           if x.truthy && y.truthy then { e1 with playerX := x, playerY := y }
           else e1) := by
  unfold loadPosition
  simp only [JSVal.getE, ok_bind]
  by_cases hr : ((alookup "room" fs).getD JSVal.undefined).truthy = true <;>
    by_cases hx : ((alookup "x" fs).getD JSVal.undefined).truthy = true <;>
    by_cases hy : ((alookup "y" fs).getD JSVal.undefined).truthy = true <;>
    simp [hr, hx, hy]

theorem loadPosition_obj_truthy (fs : List (String × JSVal)) (e : EngineState)
    (r x y : JSVal) (hr : alookup "room" fs = some r)
    (hx : alookup "x" fs = some x) (hy : alookup "y" fs = some y)
    (hrT : r.truthy = true) (hxT : x.truthy = true) (hyT : y.truthy = true) :
    loadPosition (.obj fs) e =
      .ok { e with curRoom := r, playerRoom := r, playerX := x, playerY := y } := by
  rw [loadPosition_obj]
  simp [hr, hx, hy, hrT, hxT, hyT]

theorem loadItems_obj_restore (fs : List (String × JSVal)) (e : EngineState)
    (inv : JSVal) (saved : List (String × JSVal))
    (hinv : alookup "inventory" fs = some inv) (hinvT : inv.truthy = true)
    (hitems : alookup "items" fs =
      some (.arr (saved.map fun p => JSVal.arr [.str p.1, p.2])))
    (hkeys : e.rooms.map Prod.fst = saved.map Prod.fst)
    (hnodup : (e.rooms.map Prod.fst).Nodup) :
    loadItems (.obj fs) e = .ok { e with inventory := inv, rooms := saved } := by
  unfold loadItems
  have happ := applyItemEntries_restore saved [] e.rooms (by simpa using hnodup) hkeys
  simp only [List.nil_append] at happ
  simp [JSVal.getE, hinv, hitems, hinvT, JSVal.elemsE, happ]

theorem loadItems_obj_falsy (fs : List (String × JSVal)) (e : EngineState)
    (hit : ((alookup "items" fs).getD JSVal.undefined).truthy = false) :
    loadItems (.obj fs) e =
      .ok (if ((alookup "inventory" fs).getD .undefined).truthy
           then { e with inventory := (alookup "inventory" fs).getD .undefined }
           else e) := by
  unfold loadItems
  by_cases hi : ((alookup "inventory" fs).getD JSVal.undefined).truthy = true <;>
    simp [JSVal.getE, hi, hit]

theorem loadVariables_obj_restore (fs : List (String × JSVal)) (e : EngineState)
    (saved : List (String × JSVal))
    (hvars : alookup "variables" fs =
      some (.arr (saved.map fun p => JSVal.arr [.str p.1, p.2])))
    (hkeys : e.«variables».map Prod.fst = saved.map Prod.fst)
    (hnodup : (e.«variables».map Prod.fst).Nodup) :
    loadVariables (.obj fs) e = .ok { e with «variables» := saved } := by
  unfold loadVariables
  have happ := applyVarEntries_restore saved [] e.«variables»
    (by simpa using hnodup) hkeys
  simp only [List.nil_append] at happ
  simp [JSVal.getE, hvars, JSVal.elemsE, happ]

theorem loadVariables_obj_falsy (fs : List (String × JSVal)) (e : EngineState)
    (hv : ((alookup "variables" fs).getD JSVal.undefined).truthy = false) :
    loadVariables (.obj fs) e = .ok e := by
  unfold loadVariables
  simp [JSVal.getE, hv]

theorem loadDialog_obj (fs : List (String × JSVal)) (e : EngineState) :
    loadDialog (.obj fs) e =
      .ok (if ((alookup "sequenceIndices" fs).getD .undefined).truthy
           then { e with sequenceIndices := (alookup "sequenceIndices" fs).getD .undefined,
                         shuffles := (alookup "shuffles" fs).getD .undefined }
           else e) := by
  unfold loadDialog
  by_cases hs : ((alookup "sequenceIndices" fs).getD JSVal.undefined).truthy = true <;>
    simp [JSVal.getE, hs]

theorem jsonNormalizeArr_pairs (l : List (String × JSVal))
    (h : ∀ p ∈ l, jsonNormalize p.2 = p.2 ∧ p.2 ≠ JSVal.undefined) :
    jsonNormalizeArr (l.map fun p => .arr [.str p.1, p.2]) =
      l.map fun p => JSVal.arr [.str p.1, p.2] := by
  induction l with
  | nil => rfl
  | cons p rest ih =>
    obtain ⟨k, v⟩ := p
    obtain ⟨hv, hvu⟩ := h (k, v) (List.mem_cons_self _ _)
    have hrest := ih fun q hq => h q (List.mem_cons_of_mem _ hq)
    simp only [List.map_cons, jsonNormalizeArr, jsonNormalize, hrest, hv,
      isUndef_false_of_ne v hvu, JSVal.isUndefined, Bool.false_eq_true, if_false]

@[simp]
theorem JSVal.isUndef_arr (xs : List JSVal) : (JSVal.arr xs).isUndefined = false := rfl

theorem buildSnapshot_all (opts : HackOptions) (e : EngineState)
    (hp : opts.position = true) (hi : opts.items = true)
    (hv : opts.«variables» = true) (hd : opts.dialog = true) :
    buildSnapshot opts e = .obj
      [("room", e.curRoom), ("x", e.playerX), ("y", e.playerY),
       ("inventory", e.inventory),
       ("items", .arr (e.rooms.map fun p => JSVal.arr [.str p.1, p.2])),
       ("variables", .arr (e.«variables».map fun p => JSVal.arr [.str p.1, p.2])),
       ("sequenceIndices", e.sequenceIndices), ("shuffles", e.shuffles)] := by
  simp [buildSnapshot, hp, hi, hv, hd]

theorem jsonNormalize_buildSnapshot (opts : HackOptions) (e : EngineState)
    (hp : opts.position = true) (hi : opts.items = true)
    (hv : opts.«variables» = true) (hd : opts.dialog = true)
    (hroomN : jsonNormalize e.curRoom = e.curRoom) (hroomU : e.curRoom ≠ .undefined)
    (hxN : jsonNormalize e.playerX = e.playerX) (hxU : e.playerX ≠ .undefined)
    (hyN : jsonNormalize e.playerY = e.playerY) (hyU : e.playerY ≠ .undefined)
    (hinvN : jsonNormalize e.inventory = e.inventory) (hinvU : e.inventory ≠ .undefined)
    (hseqN : jsonNormalize e.sequenceIndices = e.sequenceIndices)
    (hseqU : e.sequenceIndices ≠ .undefined)
    (hshN : jsonNormalize e.shuffles = e.shuffles) (hshU : e.shuffles ≠ .undefined)
    (hrooms : ∀ p ∈ e.rooms, jsonNormalize p.2 = p.2 ∧ p.2 ≠ JSVal.undefined)
    (hvars : ∀ p ∈ e.«variables», jsonNormalize p.2 = p.2 ∧ p.2 ≠ JSVal.undefined) :
    jsonNormalize (buildSnapshot opts e) = buildSnapshot opts e := by
  rw [buildSnapshot_all opts e hp hi hv hd]
  simp only [jsonNormalize, jsonNormalizeObj,
    hroomN, hxN, hyN, hinvN, hseqN, hshN,
    jsonNormalizeArr_pairs e.rooms hrooms,
    jsonNormalizeArr_pairs e.«variables» hvars,
    isUndef_false_of_ne _ hroomU, isUndef_false_of_ne _ hxU,
    isUndef_false_of_ne _ hyU, isUndef_false_of_ne _ hinvU,
    isUndef_false_of_ne _ hseqU, isUndef_false_of_ne _ hshU,
    JSVal.isUndef_arr, Bool.false_eq_true, if_false]

/-- C1 (amended): round-trip faithfulness holds only for truthy saved
values. With all feature flags enabled, if the saved room id, x, y,
inventory and sequenceIndices are truthy (so in particular the coordinates
are nonzero), the saved values survive the JSON round-trip, and the
load-time state has the same room ids and variable names (without
duplicates), then load after save restores the current room, the player's
x/y, the inventory, every room's item list, every dialog variable, and the
dialog sequence indices and shuffle state to exactly the saved values. The
truthiness proviso is forced by the counterexample: a save at x = 0 is not
restored. -/
theorem save_load_restores (opts : HackOptions) (st : Storage) (e1 e2 : EngineState)
    (hp : opts.position = true) (hi : opts.items = true)
    (hv : opts.«variables» = true) (hd : opts.dialog = true)
    (hroomT : e1.curRoom.truthy = true) (hxT : e1.playerX.truthy = true)
    (hyT : e1.playerY.truthy = true) (hinvT : e1.inventory.truthy = true)
    (hseqT : e1.sequenceIndices.truthy = true)
    (hroomN : jsonNormalize e1.curRoom = e1.curRoom)
    (hxN : jsonNormalize e1.playerX = e1.playerX)
    (hyN : jsonNormalize e1.playerY = e1.playerY)
    (hinvN : jsonNormalize e1.inventory = e1.inventory)
    (hseqN : jsonNormalize e1.sequenceIndices = e1.sequenceIndices)
    (hshN : jsonNormalize e1.shuffles = e1.shuffles) (hshU : e1.shuffles ≠ .undefined)
    (hrooms : ∀ p ∈ e1.rooms, jsonNormalize p.2 = p.2 ∧ p.2 ≠ JSVal.undefined)
    (hvars : ∀ p ∈ e1.«variables», jsonNormalize p.2 = p.2 ∧ p.2 ≠ JSVal.undefined)
    (hrkeys : e2.rooms.map Prod.fst = e1.rooms.map Prod.fst)
    (hvkeys : e2.«variables».map Prod.fst = e1.«variables».map Prod.fst)
    (hrnodup : (e2.rooms.map Prod.fst).Nodup)
    (hvnodup : (e2.«variables».map Prod.fst).Nodup) :
    load opts (save opts st e1) e2 =
      .ok { e2 with
        curRoom := e1.curRoom, playerRoom := e1.curRoom,
        playerX := e1.playerX, playerY := e1.playerY,
        inventory := e1.inventory, rooms := e1.rooms,
        «variables» := e1.«variables»,
        sequenceIndices := e1.sequenceIndices, shuffles := e1.shuffles } := by
  have hroomU : e1.curRoom ≠ .undefined := fun hh => by rw [hh] at hroomT; simp at hroomT
  have hxU : e1.playerX ≠ .undefined := fun hh => by rw [hh] at hxT; simp at hxT
  have hyU : e1.playerY ≠ .undefined := fun hh => by rw [hh] at hyT; simp at hyT
  have hinvU : e1.inventory ≠ .undefined := fun hh => by rw [hh] at hinvT; simp at hinvT
  have hseqU : e1.sequenceIndices ≠ .undefined := fun hh => by
    rw [hh] at hseqT; simp at hseqT
  have hsnap : getItem (save opts st e1) opts.key = some (buildSnapshot opts e1) := by
    unfold save
    rw [getItem_setItem_self,
      jsonNormalize_buildSnapshot opts e1 hp hi hv hd hroomN hroomU hxN hxU hyN hyU
        hinvN hinvU hseqN hseqU hshN hshU hrooms hvars]
  rw [buildSnapshot_all opts e1 hp hi hv hd] at hsnap
  rw [load_of_some opts _ e2 _ hsnap]
  simp only [hp, hi, hv, hd, if_true]
  rw [loadPosition_obj_truthy _ e2 e1.curRoom e1.playerX e1.playerY
    (by simp [alookup]) (by simp [alookup]) (by simp [alookup]) hroomT hxT hyT]
  simp only [ok_bind]
  rw [loadItems_obj_restore _ _ e1.inventory e1.rooms (by simp [alookup]) hinvT
    (by simp [alookup]) (by simpa using hrkeys) (by simpa using hrnodup)]
  simp only [ok_bind]
  rw [loadVariables_obj_restore _ _ e1.«variables» (by simp [alookup])
    (by simpa using hvkeys) (by simpa using hvnodup)]
  simp only [ok_bind]
  rw [loadDialog_obj]
  simp [alookup, hseqT]

theorem load_steps {opts : HackOptions} {st : Storage} {e e' : EngineState}
    {snapshot : JSVal} (hgi : getItem st opts.key = some snapshot)
    (h : load opts st e = .ok e') :
    ∃ ea eb ec : EngineState,
      (if opts.position then loadPosition snapshot e else pure e) = .ok ea ∧
      (if opts.items then loadItems snapshot ea else pure ea) = .ok eb ∧
      (if opts.«variables» then loadVariables snapshot eb else pure eb) = .ok ec ∧
      (if opts.dialog then loadDialog snapshot ec else pure ec) = .ok e' := by
  rw [load_of_some opts st e snapshot hgi] at h
  rcases hA : (if opts.position then loadPosition snapshot e else pure e) with m | ea
  · rw [hA] at h
    simp at h
  · rw [hA] at h
    simp only [ok_bind] at h
    rcases hB : (if opts.items then loadItems snapshot ea else pure ea) with m | eb
    · rw [hB] at h
      simp at h
    · rw [hB] at h
      simp only [ok_bind] at h
      rcases hC : (if opts.«variables» then loadVariables snapshot eb else pure eb)
        with m | ec
      · rw [hC] at h
        simp at h
      · rw [hC] at h
        simp only [ok_bind] at h
        exact ⟨ea, eb, ec, rfl, hB, hC, h⟩

theorem load_obj_falsy_guard (opts : HackOptions) (st : Storage)
    (e e' : EngineState) (fs : List (String × JSVal))
    (hgi : getItem st opts.key = some (.obj fs))
    (hload : load opts st e = .ok e') :
    (((alookup "x" fs).getD .undefined).truthy = false ∨
      ((alookup "y" fs).getD .undefined).truthy = false →
      e'.playerX = e.playerX ∧ e'.playerY = e.playerY) ∧
    (((alookup "room" fs).getD .undefined).truthy = false →
      e'.curRoom = e.curRoom) := by
  obtain ⟨ea, eb, ec, hA, hB, hC, hD⟩ := load_steps hgi hload
  have hBf : eb.curRoom = ea.curRoom ∧ eb.playerX = ea.playerX ∧
      eb.playerY = ea.playerY := by
    by_cases hb : opts.items = true
    · rw [if_pos hb] at hB
      obtain ⟨h1, h2, h3, _⟩ := loadItems_frame hB
      exact ⟨h1, h2, h3⟩
    · rw [if_neg hb] at hB
      obtain rfl : ea = eb := by simpa using hB
      exact ⟨rfl, rfl, rfl⟩
  have hCf : ec.curRoom = eb.curRoom ∧ ec.playerX = eb.playerX ∧
      ec.playerY = eb.playerY := by
    by_cases hc : opts.«variables» = true
    · rw [if_pos hc] at hC
      obtain ⟨h1, h2, h3, _⟩ := loadVariables_frame hC
      exact ⟨h1, h2, h3⟩
    · rw [if_neg hc] at hC
      obtain rfl : eb = ec := by simpa using hC
      exact ⟨rfl, rfl, rfl⟩
  have hDf : e'.curRoom = ec.curRoom ∧ e'.playerX = ec.playerX ∧
      e'.playerY = ec.playerY := by
    by_cases hd : opts.dialog = true
    · rw [if_pos hd] at hD
      obtain ⟨h1, h2, h3, _⟩ := loadDialog_frame hD
      exact ⟨h1, h2, h3⟩
    · rw [if_neg hd] at hD
      obtain rfl : ec = e' := by simpa using hD
      exact ⟨rfl, rfl, rfl⟩
  have hApos :
      (((alookup "x" fs).getD .undefined).truthy = false ∨
        ((alookup "y" fs).getD .undefined).truthy = false →
        ea.playerX = e.playerX ∧ ea.playerY = e.playerY) ∧
      (((alookup "room" fs).getD .undefined).truthy = false →
        ea.curRoom = e.curRoom) := by
    by_cases hp : opts.position = true
    · rw [if_pos hp, loadPosition_obj, Except.ok.injEq] at hA
      subst hA
      constructor
      · intro hxy
        have hand : (((alookup "x" fs).getD JSVal.undefined).truthy &&
            ((alookup "y" fs).getD JSVal.undefined).truthy) = false := by
          rcases hxy with hx | hy
          · simp [hx]
          · simp [hy]
        by_cases hr : ((alookup "room" fs).getD JSVal.undefined).truthy = true <;>
          exact ⟨by simp [hand, hr], by simp [hand, hr]⟩
      · intro hroomf
        by_cases hxyt : (((alookup "x" fs).getD JSVal.undefined).truthy &&
            ((alookup "y" fs).getD JSVal.undefined).truthy) = true <;>
          simp [hroomf, hxyt]
    · rw [if_neg hp] at hA
      obtain rfl : e = ea := by simpa using hA
      exact ⟨fun _ => ⟨rfl, rfl⟩, fun _ => rfl⟩
  constructor
  · intro hxy
    obtain ⟨h1, h2⟩ := hApos.1 hxy
    exact ⟨by rw [hDf.2.1, hCf.2.1, hBf.2.1, h1],
      by rw [hDf.2.2, hCf.2.2, hBf.2.2, h2]⟩
  · intro hr
    rw [hDf.1, hCf.1, hBf.1, hApos.2 hr]

/-- Observation helper: the stored field of an object value (`none` on
non-objects and on missing keys). -/
def JSVal.field : JSVal → String → Option JSVal
  | .obj fs, k => alookup k fs
  | _, _ => none

/-! Claim theorems. -/

/-- C2: missing snapshot is a silent no-op. For every engine state, if no
value is stored in localStorage under `hackOptions.key`, `load()` returns
without raising an error and without modifying any engine state. -/
theorem load_missing_snapshot_noop (opts : HackOptions) (st : Storage)
    (e : EngineState) (h : getItem st opts.key = none) :
    load opts st e = .ok e :=
  load_of_none opts st e h

/-- Witness for C2 at a concrete empty storage. -/
theorem load_missing_snapshot_noop_witness :
    load defaultHackOptions [] exampleEngine = .ok exampleEngine :=
  load_missing_snapshot_noop defaultHackOptions [] exampleEngine rfl

/-- C4: snapshot contents match the data model. With all four feature flags
enabled, the record written by `save()` consists exactly of the fields
`room`, `x`, `y`, `inventory`, `items` (room id paired with that room's item
list), `variables` (name/value pairs), `sequenceIndices` and `shuffles`, in
source order, and nothing else, and `save` stores exactly the JSON
round-trip of that record under `hackOptions.key`. -/
theorem snapshot_contents (opts : HackOptions) (st : Storage) (e : EngineState)
    (hp : opts.position = true) (hi : opts.items = true)
    (hv : opts.«variables» = true) (hd : opts.dialog = true) :
    buildSnapshot opts e = .obj
      [("room", e.curRoom), ("x", e.playerX), ("y", e.playerY),
       ("inventory", e.inventory),
       ("items", .arr (e.rooms.map fun p => JSVal.arr [.str p.1, p.2])),
       ("variables", .arr (e.«variables».map fun p => JSVal.arr [.str p.1, p.2])),
       ("sequenceIndices", e.sequenceIndices), ("shuffles", e.shuffles)] ∧
    getItem (save opts st e) opts.key =
      some (jsonNormalize (buildSnapshot opts e)) := by
  refine ⟨buildSnapshot_all opts e hp hi hv hd, ?_⟩
  unfold save
  exact getItem_setItem_self st opts.key (jsonNormalize (buildSnapshot opts e))

/-- Witness for C4 at the default options and a concrete engine state. -/
theorem snapshot_contents_witness :
    buildSnapshot defaultHackOptions exampleEngine = .obj
      [("room", .str "0"), ("x", .num 4), ("y", .num 3),
       ("inventory", .obj [("tea", .num 1)]),
       ("items", .arr [.arr [.str "0", .arr [.arr [.str "tea", .num 5, .num 5]]],
         .arr [.str "1", .arr []]]),
       ("variables", .arr [.arr [.str "a", .num 42], .arr [.str "b", .str "hi"]]),
       ("sequenceIndices", .obj [("SEQ_0", .num 1)]),
       ("shuffles", .obj [("SEQ_1", .arr [.num 1, .num 0])])] :=
  (snapshot_contents defaultHackOptions [] exampleEngine rfl rfl rfl rfl).1

/-- C6: autosave enablement. The `onready` hook installs a periodic
autosave timer exactly when `autosaveInterval` is strictly below the
JavaScript `Infinity`, at that interval; with the shipped default value
`Infinity` no timer is ever installed, so an autosave never occurs. -/
theorem autosave_enablement :
    (∀ opts : HackOptions,
      onreadyAutosaveHook opts none =
        if opts.autosaveInterval < ⊤ then some opts.autosaveInterval else none) ∧
    (∀ opts : HackOptions,
      ((onreadyAutosaveHook opts none).isSome = true ↔
        opts.autosaveInterval < ⊤)) ∧
    onreadyAutosaveHook defaultHackOptions none = none := by
  refine ⟨fun opts => rfl, fun opts => ?_, ?_⟩
  · by_cases h : opts.autosaveInterval < ⊤ <;> simp [onreadyAutosaveHook, h]
  · simp [onreadyAutosaveHook, defaultHackOptions]

/-- C10: narrat tag guard. The `(narrat ...)` dialog tag warns and does not
call `window.narrat.jump` when its first parameter is missing or falsy, and
calls it with exactly the supplied label when the label is truthy. -/
theorem narrat_tag_guard (parameters : List JSVal) (w : NarratWorld) :
    (((parameters.get? 0).getD .undefined).truthy = false →
      narratTag parameters w =
        { w with warnings :=
            w.warnings ++ ["Tried to jump to narrat label, but no label"] }) ∧
    (((parameters.get? 0).getD .undefined).truthy = true →
      narratTag parameters w =
        { w with jumps := w.jumps ++ [(parameters.get? 0).getD .undefined] }) := by
  constructor
  · intro h
    unfold narratTag narratJump
    rw [h]
    rfl
  · intro h
    unfold narratTag narratJump
    rw [h]
    rfl

/-- Witness for C10: a missing parameter warns, a concrete label jumps. -/
theorem narrat_tag_guard_witness :
    narratTag [] ⟨[], []⟩ =
      ⟨["Tried to jump to narrat label, but no label"], []⟩ ∧
    narratTag [.str "intro"] ⟨[], []⟩ = ⟨[], [.str "intro"]⟩ := by
  constructor
  · exact (narrat_tag_guard [] ⟨[], []⟩).1 rfl
  · exact (narrat_tag_guard [.str "intro"] ⟨[], []⟩).2 rfl

theorem mem_setItem_key {st : Storage} {k : String} {v : JSVal} {p : String × JSVal}
    (hst : ∀ q ∈ st, q.1 = k) (hp : p ∈ setItem st k v) : p.1 = k := by
  unfold setItem at hp
  by_cases hs : (alookup k st).isSome
  · rw [if_pos hs] at hp
    obtain ⟨q, hq, rfl⟩ := List.mem_map.mp hp
    by_cases hqk : q.1 = k
    · rw [if_pos hqk]
    · rw [if_neg hqk]
      exact hst q hq
  · rw [if_neg hs] at hp
    rcases List.mem_append.mp hp with hmem | hmem
    · exact hst p hmem
    · rw [List.mem_singleton.mp hmem]

theorem runOp_preserves_key (opts : HackOptions) (op : SaveOp) (st : Storage)
    (e : EngineState) (st' : Storage) (e' : EngineState)
    (hst : ∀ p ∈ st, p.1 = opts.key)
    (h : runOp opts op (st, e) = .ok (st', e')) : ∀ p ∈ st', p.1 = opts.key := by
  cases op with
  | save =>
    simp only [runOp, Except.ok.injEq, Prod.mk.injEq] at h
    obtain ⟨h1, h2⟩ := h
    subst h1
    intro p hp
    exact mem_setItem_key hst hp
  | load =>
    simp only [runOp] at h
    cases hl : load opts st e with
    | error m =>
      rw [hl] at h
      simp [Except.map] at h
    | ok e2 =>
      rw [hl] at h
      simp only [Except.map, Except.ok.injEq, Prod.mk.injEq] at h
      obtain ⟨h1, h2⟩ := h
      subst h1
      exact hst
  | clear =>
    simp only [runOp, Except.ok.injEq, Prod.mk.injEq] at h
    obtain ⟨h1, h2⟩ := h
    subst h1
    intro p hp
    exact hst p (List.mem_of_mem_filter hp)
  | resetHook b =>
    simp only [runOp, Except.ok.injEq, Prod.mk.injEq] at h
    obtain ⟨h1, h2⟩ := h
    subst h1
    unfold resetCurGameHook
    split_ifs
    · intro p hp
      exact hst p (List.mem_of_mem_filter hp)
    · exact hst
    · exact hst
  | startHook =>
    simp only [runOp, Except.ok.injEq, Prod.mk.injEq] at h
    obtain ⟨h1, h2⟩ := h
    subst h1
    unfold startExportedGameHook
    split_ifs
    · intro p hp
      exact hst p (List.mem_of_mem_filter hp)
    · exact hst

theorem runOps_preserves_key (opts : HackOptions) (ops : List SaveOp) :
    ∀ (st : Storage) (e : EngineState) (st' : Storage) (e' : EngineState),
      (∀ p ∈ st, p.1 = opts.key) →
      runOps opts ops (st, e) = .ok (st', e') → ∀ p ∈ st', p.1 = opts.key := by
  induction ops with
  | nil =>
    intro st e st' e' hst h
    simp only [runOps, Except.ok.injEq, Prod.mk.injEq] at h
    obtain ⟨h1, h2⟩ := h
    subst h1
    exact hst
  | cons op ops ih =>
    intro st e st' e' hst h
    simp only [runOps] at h
    rw [except_bind_ok] at h
    obtain ⟨⟨st1, e1⟩, h1, h2⟩ := h
    exact ih st1 e1 st' e' (runOp_preserves_key opts op st e st1 e1 hst h1) h2

/-- C3: single-slot invariant. Every `save()` writes the freshly built
snapshot to the single fixed key `hackOptions.key` (a full overwrite,
independent of what was stored before), `clear()` removes that key, and
after any sequence of save/load/clear operations (and the clearing hooks)
started from a storage whose entries all live under that key, storage still
holds entries only under that key — so at most one snapshot ever exists. -/
theorem single_slot_invariant (opts : HackOptions) :
    (∀ (ops : List SaveOp) (st : Storage) (e : EngineState) (st' : Storage)
        (e' : EngineState), (∀ p ∈ st, p.1 = opts.key) →
        runOps opts ops (st, e) = .ok (st', e') → ∀ p ∈ st', p.1 = opts.key) ∧
    (∀ (st : Storage) (e : EngineState),
        getItem (save opts st e) opts.key =
          some (jsonNormalize (buildSnapshot opts e))) ∧
    (∀ st : Storage, getItem (clear opts st) opts.key = none) := by
  refine ⟨runOps_preserves_key opts, fun st e => ?_, fun st => ?_⟩
  · unfold save
    exact getItem_setItem_self st opts.key (jsonNormalize (buildSnapshot opts e))
  · exact getItem_removeItem_self st opts.key

/-- Witness for C3: a concrete save/load/clear/save run from empty storage
keeps everything under the single key "snapshot", a save overwrites, and a
clear empties the slot. -/
theorem single_slot_invariant_witness :
    getItem (save defaultHackOptions [] exampleEngine) "snapshot" =
      some (jsonNormalize (buildSnapshot defaultHackOptions exampleEngine)) ∧
    getItem (clear defaultHackOptions
      (save defaultHackOptions [] exampleEngine)) "snapshot" = none ∧
    ("snapshot", jsonNormalize (buildSnapshot defaultHackOptions exampleEngine)).1 =
      "snapshot" := by
  refine ⟨(single_slot_invariant defaultHackOptions).2.1 [] exampleEngine,
    (single_slot_invariant defaultHackOptions).2.2 _, ?_⟩
  exact (single_slot_invariant defaultHackOptions).1
    [SaveOp.save, SaveOp.load] [] exampleEngine
    (save defaultHackOptions [] exampleEngine) exampleEngine
    (by intro p hp; simp at hp) rfl
    ("snapshot", jsonNormalize (buildSnapshot defaultHackOptions exampleEngine))
    (by simp [save, setItem, alookup, defaultHackOptions])

/-- C7 counterexample: with `clearOnStart := true`, the
`before('startExportedGame')` hook also removes the stored snapshot — a
destruction path that is neither the `(clear)` dialog tag nor the
`clearOnEnd`-guarded reset hook, so the claim's "removed exactly by" list
is incomplete. -/
theorem snapshot_destruction_counterexample :
    runOp { defaultHackOptions with clearOnStart := true } SaveOp.startHook
        ([("snapshot", .obj [])], exampleEngine) =
      .ok ([], exampleEngine) ∧
    getItem [("snapshot", JSVal.obj [])] "snapshot" = some (.obj []) ∧
    (SaveOp.startHook = SaveOp.clear → False) ∧
    (∀ b : Bool, SaveOp.startHook = SaveOp.resetHook b → False) :=
  ⟨rfl, rfl, fun h => SaveOp.noConfusion h, fun _ h => SaveOp.noConfusion h⟩

/-- C7 amended: after one operation of the hack, the snapshot slot is empty
exactly when the operation was the `(clear)` dialog tag, or the reset hook
with both `clearOnEnd` and the engine's `isEnding` flag set, or the
page-load hook with `clearOnStart` set, or the slot was already empty and
the operation was not a save; in particular a reset with `isEnding` false
or `clearOnEnd` false leaves the snapshot in place. -/
theorem snapshot_destruction_amended (opts : HackOptions) (op : SaveOp)
    (st st' : Storage) (e e' : EngineState)
    (h : runOp opts op (st, e) = .ok (st', e')) :
    getItem st' opts.key = none ↔
      (op = .clear ∨
        (∃ b, op = .resetHook b ∧ opts.clearOnEnd = true ∧ b = true) ∨
        (op = .startHook ∧ opts.clearOnStart = true) ∨
        (getItem st opts.key = none ∧ op ≠ .save)) := by
  cases op with
  | save =>
    simp only [runOp, Except.ok.injEq, Prod.mk.injEq] at h
    obtain ⟨h1, h2⟩ := h
    subst h1
    have hs := getItem_setItem_self st opts.key (jsonNormalize (buildSnapshot opts e))
    unfold save
    simp [hs]
  | load =>
    simp only [runOp] at h
    cases hl : load opts st e with
    | error m =>
      rw [hl] at h
      simp [Except.map] at h
    | ok e2 =>
      rw [hl] at h
      simp only [Except.map, Except.ok.injEq, Prod.mk.injEq] at h
      obtain ⟨h1, h2⟩ := h
      subst h1
      simp
  | clear =>
    simp only [runOp, Except.ok.injEq, Prod.mk.injEq] at h
    obtain ⟨h1, h2⟩ := h
    subst h1
    simp [getItem_removeItem_self, clear]
  | resetHook b =>
    simp only [runOp, Except.ok.injEq, Prod.mk.injEq] at h
    obtain ⟨h1, h2⟩ := h
    subst h1
    unfold resetCurGameHook
    by_cases hce : opts.clearOnEnd = true
    · cases b
      · simp [hce]
      · simp [hce, getItem_removeItem_self, clear]
    · cases b <;> simp [hce]
  | startHook =>
    simp only [runOp, Except.ok.injEq, Prod.mk.injEq] at h
    obtain ⟨h1, h2⟩ := h
    subst h1
    unfold startExportedGameHook
    by_cases hcs : opts.clearOnStart = true
    · simp [hcs, getItem_removeItem_self, clear]
    · simp [hcs]

/-- Witness for C7 amended: the `(clear)` tag on a storage holding a
snapshot empties the slot. -/
theorem snapshot_destruction_amended_witness :
    getItem (clear defaultHackOptions [("snapshot", JSVal.obj [])])
        defaultHackOptions.key = none ↔
      (SaveOp.clear = SaveOp.clear ∨
        (∃ b, SaveOp.clear = SaveOp.resetHook b ∧
          defaultHackOptions.clearOnEnd = true ∧ b = true) ∨
        (SaveOp.clear = SaveOp.startHook ∧ defaultHackOptions.clearOnStart = true) ∨
        (getItem [("snapshot", JSVal.obj [])] defaultHackOptions.key = none ∧
          SaveOp.clear ≠ SaveOp.save)) :=
  snapshot_destruction_amended defaultHackOptions SaveOp.clear
    [("snapshot", JSVal.obj [])]
    (clear defaultHackOptions [("snapshot", JSVal.obj [])])
    exampleEngine exampleEngine rfl

/-- C1 counterexample: with every feature flag enabled, a snapshot saved
with the player at x = 0 does not restore the position. Loading that
snapshot into a state with the player at x = 5 leaves x at 5 rather than
the saved 0, because the load guard `snapshot.x && snapshot.y` is falsy at
the saved value 0, so save-then-load does not restore the player's
coordinates for every game state. -/
theorem save_load_roundtrip_counterexample :
    (load defaultHackOptions
        (save defaultHackOptions []
          { exampleEngine with playerX := .num 0, playerY := .num 1 })
        { exampleEngine with playerX := .num 5, playerY := .num 6 }).map
      EngineState.playerX = .ok (.num 5) ∧
    ({ exampleEngine with playerX := JSVal.num 0, playerY := JSVal.num 1 } :
      EngineState).playerX = .num 0 ∧
    (JSVal.num 5 = JSVal.num 0 → False) :=
  ⟨rfl, rfl, fun h => absurd (JSVal.num.inj h) (by decide)⟩

/-- Witness for C1 amended: a concrete save at truthy coordinates is fully
restored over a state whose player has moved. -/
theorem save_load_restores_witness :
    load defaultHackOptions (save defaultHackOptions [] exampleEngine)
        { exampleEngine with playerX := .num 7, playerY := .num 8 } =
      .ok exampleEngine := by
  have h := save_load_restores defaultHackOptions [] exampleEngine
    { exampleEngine with playerX := .num 7, playerY := .num 8 }
    rfl rfl rfl rfl rfl rfl rfl rfl rfl rfl rfl rfl rfl rfl rfl
    (fun hh => JSVal.noConfusion hh)
    (by intro p hp; fin_cases hp <;> exact ⟨rfl, fun hh => JSVal.noConfusion hh⟩)
    (by intro p hp; fin_cases hp <;> exact ⟨rfl, fun hh => JSVal.noConfusion hh⟩)
    rfl rfl (by decide) (by decide)
  exact h

/-- C9: load's position guard is falsy-based, not presence-based. For every
stored snapshot object, load restores the player's x and y only when both
saved values are truthy — if either is falsy, both coordinates keep their
load-time values — and a falsy room identifier leaves curRoom unchanged.
Consequently a snapshot saved with the player at coordinate 0 (here x = 0)
leaves the player's position entirely unrestored. -/
theorem load_falsy_position_guard :
    (∀ (opts : HackOptions) (st : Storage) (e e' : EngineState)
        (fs : List (String × JSVal)),
      getItem st opts.key = some (.obj fs) →
      load opts st e = .ok e' →
      (((alookup "x" fs).getD .undefined).truthy = false ∨
        ((alookup "y" fs).getD .undefined).truthy = false →
        e'.playerX = e.playerX ∧ e'.playerY = e.playerY) ∧
      (((alookup "room" fs).getD .undefined).truthy = false →
        e'.curRoom = e.curRoom)) ∧
    (∀ (opts : HackOptions) (st : Storage) (e1 e2 e' : EngineState),
      opts.position = true → opts.items = true → opts.«variables» = true →
      opts.dialog = true →
      jsonNormalize e1.curRoom = e1.curRoom → e1.curRoom ≠ .undefined →
      jsonNormalize e1.playerY = e1.playerY → e1.playerY ≠ .undefined →
      jsonNormalize e1.inventory = e1.inventory → e1.inventory ≠ .undefined →
      jsonNormalize e1.sequenceIndices = e1.sequenceIndices →
      e1.sequenceIndices ≠ .undefined →
      jsonNormalize e1.shuffles = e1.shuffles → e1.shuffles ≠ .undefined →
      (∀ p ∈ e1.rooms, jsonNormalize p.2 = p.2 ∧ p.2 ≠ JSVal.undefined) →
      (∀ p ∈ e1.«variables», jsonNormalize p.2 = p.2 ∧ p.2 ≠ JSVal.undefined) →
      e1.playerX = .num 0 →
      load opts (save opts st e1) e2 = .ok e' →
      e'.playerX = e2.playerX ∧ e'.playerY = e2.playerY) := by
  constructor
  · exact fun opts st e e' fs hgi hload => load_obj_falsy_guard opts st e e' fs hgi hload
  · intro opts st e1 e2 e' hp hi hv hd hroomN hroomU hyN hyU hinvN hinvU hseqN hseqU
      hshN hshU hrooms hvars hx0 hload
    have hx0N : jsonNormalize e1.playerX = e1.playerX := by
      rw [hx0]
      rfl
    have hx0U : e1.playerX ≠ .undefined := by
      rw [hx0]
      exact fun hh => JSVal.noConfusion hh
    have hsnap : getItem (save opts st e1) opts.key = some (buildSnapshot opts e1) := by
      unfold save
      rw [getItem_setItem_self, jsonNormalize_buildSnapshot opts e1 hp hi hv hd
        hroomN hroomU hx0N hx0U hyN hyU hinvN hinvU hseqN hseqU hshN hshU hrooms hvars]
    rw [buildSnapshot_all opts e1 hp hi hv hd] at hsnap
    have hg := load_obj_falsy_guard opts (save opts st e1) e2 e' _ hsnap hload
    apply hg.1
    left
    simp [alookup, hx0, JSVal.truthy]

/-- Witness for C9: a snapshot saved at x = 0 loaded over a state at
x = 5, y = 6 leaves the position at 5 and 6. -/
theorem load_falsy_position_guard_witness :
    ({ exampleEngine with playerX := JSVal.num 5, playerY := JSVal.num 6 } :
        EngineState).playerX = JSVal.num 5 ∧
    ({ exampleEngine with playerX := JSVal.num 5, playerY := JSVal.num 6 } :
        EngineState).playerY = JSVal.num 6 :=
  load_falsy_position_guard.2 defaultHackOptions []
    { exampleEngine with playerX := .num 0, playerY := .num 1 }
    { exampleEngine with playerX := .num 5, playerY := .num 6 }
    { exampleEngine with playerX := .num 5, playerY := .num 6 }
    rfl rfl rfl rfl rfl (fun hh => JSVal.noConfusion hh) rfl
    (fun hh => JSVal.noConfusion hh) rfl (fun hh => JSVal.noConfusion hh) rfl
    (fun hh => JSVal.noConfusion hh) rfl (fun hh => JSVal.noConfusion hh)
    (by intro p hp; fin_cases hp <;> exact ⟨rfl, fun hh => JSVal.noConfusion hh⟩)
    (by intro p hp; fin_cases hp <;> exact ⟨rfl, fun hh => JSVal.noConfusion hh⟩)
    rfl rfl

theorem step_id {b : Bool} {f : Except String EngineState} {ea eb : EngineState}
    (h : (if b = true then f else pure ea) = .ok eb) (hb : b = false) :
    ea = eb := by
  rw [hb] at h
  simpa using h

theorem step_frame_position {opts : HackOptions} {snapshot : JSVal}
    {e ea : EngineState}
    (hA : (if opts.position then loadPosition snapshot e else pure e) = .ok ea) :
    ea.inventory = e.inventory ∧ ea.rooms = e.rooms ∧
      ea.«variables» = e.«variables» ∧ ea.sequenceIndices = e.sequenceIndices ∧
      ea.shuffles = e.shuffles := by
  by_cases hb : opts.position = true
  · rw [if_pos hb] at hA
    exact loadPosition_frame hA
  · obtain rfl : e = ea := step_id hA (by simpa using hb)
    exact ⟨rfl, rfl, rfl, rfl, rfl⟩

theorem step_frame_items {opts : HackOptions} {snapshot : JSVal}
    {ea eb : EngineState}
    (hB : (if opts.items then loadItems snapshot ea else pure ea) = .ok eb) :
    eb.curRoom = ea.curRoom ∧ eb.playerX = ea.playerX ∧ eb.playerY = ea.playerY ∧
      eb.playerRoom = ea.playerRoom ∧ eb.«variables» = ea.«variables» ∧
      eb.sequenceIndices = ea.sequenceIndices ∧ eb.shuffles = ea.shuffles := by
  by_cases hb : opts.items = true
  · rw [if_pos hb] at hB
    exact loadItems_frame hB
  · obtain rfl : ea = eb := step_id hB (by simpa using hb)
    exact ⟨rfl, rfl, rfl, rfl, rfl, rfl, rfl⟩

theorem step_frame_variables {opts : HackOptions} {snapshot : JSVal}
    {eb ec : EngineState}
    (hC : (if opts.«variables» then loadVariables snapshot eb else pure eb) = .ok ec) :
    ec.curRoom = eb.curRoom ∧ ec.playerX = eb.playerX ∧ ec.playerY = eb.playerY ∧
      ec.playerRoom = eb.playerRoom ∧ ec.inventory = eb.inventory ∧
      ec.rooms = eb.rooms ∧ ec.sequenceIndices = eb.sequenceIndices ∧
      ec.shuffles = eb.shuffles := by
  by_cases hb : opts.«variables» = true
  · rw [if_pos hb] at hC
    exact loadVariables_frame hC
  · obtain rfl : eb = ec := step_id hC (by simpa using hb)
    exact ⟨rfl, rfl, rfl, rfl, rfl, rfl, rfl, rfl⟩

theorem step_frame_dialog {opts : HackOptions} {snapshot : JSVal}
    {ec ed : EngineState}
    (hD : (if opts.dialog then loadDialog snapshot ec else pure ec) = .ok ed) :
    ed.curRoom = ec.curRoom ∧ ed.playerX = ec.playerX ∧ ed.playerY = ec.playerY ∧
      ed.playerRoom = ec.playerRoom ∧ ed.inventory = ec.inventory ∧
      ed.rooms = ec.rooms ∧ ed.«variables» = ec.«variables» := by
  by_cases hb : opts.dialog = true
  · rw [if_pos hb] at hD
    exact loadDialog_frame hD
  · obtain rfl : ec = ed := step_id hD (by simpa using hb)
    exact ⟨rfl, rfl, rfl, rfl, rfl, rfl, rfl⟩

/-- C5: feature-flag framing. Each snapshot field is present exactly when
its governing flag is set (and holds the corresponding engine value), so a
disabled flag omits its fields and flags do not interfere with each other's
fields; and on load, a disabled flag leaves its engine state untouched:
with position false curRoom, x, y and the player's room are unchanged, with
items false the inventory and room item lists are unchanged, with variables
false the dialog variables are unchanged, and with dialog false the
sequence indices and shuffles are unchanged. -/
theorem feature_flag_framing :
    (∀ (opts : HackOptions) (e : EngineState),
      (buildSnapshot opts e).field "room" =
        (if opts.position then some e.curRoom else none) ∧
      (buildSnapshot opts e).field "x" =
        (if opts.position then some e.playerX else none) ∧
      (buildSnapshot opts e).field "y" =
        (if opts.position then some e.playerY else none) ∧
      (buildSnapshot opts e).field "inventory" =
        (if opts.items then some e.inventory else none) ∧
      (buildSnapshot opts e).field "items" =
        (if opts.items then
          some (.arr (e.rooms.map fun p => JSVal.arr [.str p.1, p.2])) else none) ∧
      (buildSnapshot opts e).field "variables" =
        (if opts.«variables» then
          some (.arr (e.«variables».map fun p => JSVal.arr [.str p.1, p.2]))
         else none) ∧
      (buildSnapshot opts e).field "sequenceIndices" =
        (if opts.dialog then some e.sequenceIndices else none) ∧
      (buildSnapshot opts e).field "shuffles" =
        (if opts.dialog then some e.shuffles else none)) ∧
    (∀ (opts : HackOptions) (st : Storage) (e e' : EngineState),
      load opts st e = .ok e' →
      (opts.position = false → e'.curRoom = e.curRoom ∧ e'.playerX = e.playerX ∧
        e'.playerY = e.playerY ∧ e'.playerRoom = e.playerRoom) ∧
      (opts.items = false → e'.inventory = e.inventory ∧ e'.rooms = e.rooms) ∧
      (opts.«variables» = false → e'.«variables» = e.«variables») ∧
      (opts.dialog = false → e'.sequenceIndices = e.sequenceIndices ∧
        e'.shuffles = e.shuffles)) := by
  constructor
  · intro opts e
    by_cases hp : opts.position = true <;> by_cases hi : opts.items = true <;>
      by_cases hv : opts.«variables» = true <;> by_cases hd : opts.dialog = true <;>
      simp [buildSnapshot, JSVal.field, alookup, hp, hi, hv, hd]
  · intro opts st e e' hload
    cases hgi : getItem st opts.key with
    | none =>
      rw [load_of_none opts st e hgi] at hload
      obtain rfl : e = e' := by simpa using hload
      exact ⟨fun _ => ⟨rfl, rfl, rfl, rfl⟩, fun _ => ⟨rfl, rfl⟩, fun _ => rfl,
        fun _ => ⟨rfl, rfl⟩⟩
    | some snapshot =>
      obtain ⟨ea, eb, ec, hA, hB, hC, hD⟩ := load_steps hgi hload
      obtain ⟨pInv, pRooms, pVars, pSeq, pSh⟩ := step_frame_position hA
      obtain ⟨iCur, iX, iY, iPR, iVars, iSeq, iSh⟩ := step_frame_items hB
      obtain ⟨vCur, vX, vY, vPR, vInv, vRooms, vSeq, vSh⟩ := step_frame_variables hC
      obtain ⟨dCur, dX, dY, dPR, dInv, dRooms, dVars⟩ := step_frame_dialog hD
      refine ⟨?_, ?_, ?_, ?_⟩
      · intro hpf
        obtain rfl : e = ea := step_id hA hpf
        exact ⟨by rw [dCur, vCur, iCur], by rw [dX, vX, iX],
          by rw [dY, vY, iY], by rw [dPR, vPR, iPR]⟩
      · intro hif
        obtain rfl : ea = eb := step_id hB hif
        exact ⟨by rw [dInv, vInv, pInv], by rw [dRooms, vRooms, pRooms]⟩
      · intro hvf
        obtain rfl : eb = ec := step_id hC hvf
        exact by rw [dVars, iVars, pVars]
      · intro hdf
        obtain rfl : ec = e' := step_id hD hdf
        exact ⟨by rw [vSeq, iSeq, pSeq], by rw [vSh, iSh, pSh]⟩

/-- Witness for C5: with position disabled, loading a full snapshot leaves
the player's coordinates untouched. -/
theorem feature_flag_framing_witness :
    exampleEngine.curRoom = exampleEngine.curRoom ∧
    exampleEngine.playerX = exampleEngine.playerX ∧
    exampleEngine.playerY = exampleEngine.playerY ∧
    exampleEngine.playerRoom = exampleEngine.playerRoom :=
  (feature_flag_framing.2 { defaultHackOptions with position := false }
    (save defaultHackOptions [] exampleEngine) exampleEngine exampleEngine rfl).1 rfl

/-- C8 counterexample: stored JSON containing a truthy non-array under
`items` (here the number 5) is not "written into engine state as-is" —
`snapshot.items.forEach` throws a TypeError, so load neither applies the
value nor completes silently. -/
theorem load_no_validation_counterexample :
    load defaultHackOptions [("snapshot", .obj [("items", .num 5)])] exampleEngine =
      .error "TypeError: forEach is not a function" ∧
    (JSVal.num 5).truthy = true :=
  ⟨rfl, rfl⟩

/-- C8 amended: load performs no schema or type validation, but only the
fields `room`, `x`/`y`, `inventory`, `sequenceIndices` (with `shuffles`
copied alongside it) are written into engine state as-is whatever their
types, whenever truthy; `items` and `variables` are instead iterated as
arrays, and a truthy non-array there makes load throw a TypeError. For
every stored object without `items`/`variables` entries, whatever truthy
values of whatever types sit under the remaining names are copied as-is
and load reports no error. -/
theorem load_no_validation_amended (r x y inv seq sh : JSVal) (st : Storage)
    (e : EngineState)
    (hst : getItem st defaultHackOptions.key = some (.obj
      [("room", r), ("x", x), ("y", y), ("inventory", inv),
       ("sequenceIndices", seq), ("shuffles", sh)])) :
    load defaultHackOptions st e = .ok
      { e with
        curRoom := if r.truthy then r else e.curRoom,
        playerRoom := if r.truthy then r else e.playerRoom,
        playerX := if x.truthy && y.truthy then x else e.playerX,
        playerY := if x.truthy && y.truthy then y else e.playerY,
        inventory := if inv.truthy then inv else e.inventory,
        sequenceIndices := if seq.truthy then seq else e.sequenceIndices,
        shuffles := if seq.truthy then sh else e.shuffles } := by
  rw [load_of_some _ _ _ _ hst]
  simp only [defaultHackOptions, if_true]
  rw [loadPosition_obj]
  simp only [ok_bind]
  rw [loadItems_obj_falsy _ _ (by simp [alookup])]
  simp only [ok_bind]
  rw [loadVariables_obj_falsy _ _ (by simp [alookup])]
  simp only [ok_bind]
  rw [loadDialog_obj]
  by_cases hr : r.truthy = true <;>
    by_cases hxy : (x.truthy && y.truthy) = true <;>
    by_cases hinv : inv.truthy = true <;>
    by_cases hseq : seq.truthy = true <;>
    simp [alookup, hr, hxy, hinv, hseq]

/-- Witness for C8 amended: even ill-typed truthy values (a numeric room
id, string coordinates, a boolean inventory) are copied into engine state
as-is, and the falsy `shuffles` value is still copied alongside the truthy
`sequenceIndices`. -/
theorem load_no_validation_amended_witness :
    load defaultHackOptions
        [("snapshot", .obj
          [("room", .num 3), ("x", .str "a"), ("y", .str "b"),
           ("inventory", .bool true), ("sequenceIndices", .num 7),
           ("shuffles", .null)])]
        exampleEngine =
      .ok { exampleEngine with
        curRoom := .num 3, playerRoom := .num 3,
        playerX := .str "a", playerY := .str "b",
        inventory := .bool true,
        sequenceIndices := .num 7, shuffles := .null } := by
  have h := load_no_validation_amended (.num 3) (.str "a") (.str "b") (.bool true)
    (.num 7) .null
    [("snapshot", .obj
      [("room", .num 3), ("x", .str "a"), ("y", .str "b"),
       ("inventory", .bool true), ("sequenceIndices", .num 7),
       ("shuffles", .null)])]
    exampleEngine rfl
  exact h

/-- Witness for C6: with the shipped default options (interval Infinity) no
autosave timer is installed. -/
theorem autosave_enablement_witness :
    onreadyAutosaveHook defaultHackOptions none = none :=
  autosave_enablement.2.2
